import Mathlib

/-!
Verification of `rateguard` (src/rateguard/main.py), a call-rate throttle
implemented as a Python decorator `rate_limit(rpm)`.

Shallow embedding conventions:
* Python floats are modelled as exact rationals (`ℚ`).
* Wall-clock time is explicit model state: `ThrottleState.clock` holds the
  current time; each `time.time()` reading is the current clock plus a
  caller-supplied nonnegative drift (accounting for time that passes between
  model steps).  `time.sleep(d)` advances the clock by `d`.
* Python exceptions are modelled with `Except PyErr`; a wrapped function is
  `α → Except PyErr β`.
-/

namespace Rateguard

/-- Python exceptions relevant to the throttle:
`zeroDivisionError` is raised by `60.0 / rpm` when `rpm = 0`; `userError`
stands for any exception raised by a wrapped operation. -/
inductive PyErr where
  | zeroDivisionError
  | userError (msg : String)
deriving DecidableEq, Repr

/-- The closure state created by one invocation of `rate_limit`, together with
the ambient wall clock.  `interval` and `last_call_time` are the closure
variables of the Python source (`interval: float = 60.0 / rpm`,
`last_call_time: float = 0.0`); `clock` is the model's current wall-clock
time (not part of the Python closure). -/
structure ThrottleState where
  interval : ℚ
  last_call_time : ℚ
  clock : ℚ
deriving DecidableEq, Repr

/-- `rate_limit(rpm)` from the source: computes `interval = 60.0 / rpm`
(raising `ZeroDivisionError` when `rpm = 0`, since Python float division by
zero of an `int` raises) and initializes `last_call_time = 0.0`.
`t0` is the ambient wall-clock time at construction; the source never reads
the clock at construction, so `t0` only seeds the model clock. -/
def rate_limit (rpm : ℤ) (t0 : ℚ) : Except PyErr ThrottleState :=
  if rpm = 0 then Except.error PyErr.zeroDivisionError
  else Except.ok { interval := 60 / (rpm : ℚ), last_call_time := 0, clock := t0 }

/-- The locked section of `wrapper` from the source:
`now = time.time()`; `elapsed = now - last_call_time`;
`if elapsed < interval: time.sleep(interval - elapsed)`;
`last_call_time = time.time()`.
`d1` is the drift of the first clock reading past the state's clock and `d2`
the drift of the second reading past the end of the sleep; both are
nonnegative for a monotone clock. -/
def wrapperRelease (st : ThrottleState) (d1 d2 : ℚ) : ThrottleState :=
  let now := st.clock + d1
  let elapsed := now - st.last_call_time
  let afterSleep := if elapsed < st.interval then now + (st.interval - elapsed) else now
  { st with last_call_time := afterSleep + d2, clock := afterSleep + d2 }

/-- The duration passed to `time.sleep` by a call of `wrapper`, when the
sleep branch is taken (`none` when `elapsed < interval` fails and no sleep
happens). -/
def sleepDuration (st : ThrottleState) (d1 : ℚ) : Option ℚ :=
  let now := st.clock + d1
  let elapsed := now - st.last_call_time
  if elapsed < st.interval then some (st.interval - elapsed) else none

/-- The whole `wrapper` from the source: run the locked
read-compare-sleep-update section, then (outside the lock) call the wrapped
function on the supplied arguments and return its result unchanged.  The
state update happens whether or not `func args` fails, exactly as in the
source where the `with lock:` block completes before `func` is invoked. -/
def wrapper {α β : Type} (func : α → Except PyErr β) (st : ThrottleState)
    (d1 d2 : ℚ) (args : α) : Except PyErr β × ThrottleState :=
  (func args, wrapperRelease st d1 d2)

/-- Release times of a sequence of calls through one wrapper: each list
element gives the clock drifts `(d1, d2)` of one call, and the result lists
the successive values stored into `last_call_time`. -/
def runCalls : ThrottleState → List (ℚ × ℚ) → List ℚ
  | _, [] => []
  | st, d :: ds =>
      let st1 := wrapperRelease st d.1 d.2
      st1.last_call_time :: runCalls st1 ds

-- sanity checks on concrete values (interval 1, three back-to-back calls)
example : rate_limit 60 0 = Except.ok ⟨1, 0, 0⟩ := by
  norm_num [rate_limit]
example : runCalls ⟨1, 0, 0⟩ [(0, 0), (0, 0), (0, 0)] = [1, 2, 3] := by
  norm_num [runCalls, wrapperRelease]
example : rate_limit (-1) 0 = Except.ok ⟨-60, 0, 0⟩ := by
  norm_num [rate_limit]
example : sleepDuration ⟨1, 0, 0⟩ 0 = some 1 := by
  norm_num [sleepDuration]
example : sleepDuration ⟨1, 0, 5⟩ 0 = none := by
  norm_num [sleepDuration]

/-! ### Helper lemmas -/

/-- The interval captured at construction is never written again. -/
theorem wrapperRelease_interval (st : ThrottleState) (d1 d2 : ℚ) :
    (wrapperRelease st d1 d2).interval = st.interval := rfl

/-- Right after a release, the model clock equals the stored release time. -/
theorem wrapperRelease_clock_eq (st : ThrottleState) (d1 d2 : ℚ) :
    (wrapperRelease st d1 d2).clock = (wrapperRelease st d1 d2).last_call_time := rfl

/-- One-step spacing: with a monotone clock, the release time stored by a call
is at least the previous stored time plus the interval. -/
theorem wrapperRelease_spacing (st : ThrottleState) (d1 d2 : ℚ)
    (hd2 : 0 ≤ d2) :
    st.last_call_time + st.interval ≤ (wrapperRelease st d1 d2).last_call_time := by
  unfold wrapperRelease
  dsimp only
  by_cases h : st.clock + d1 - st.last_call_time < st.interval
  · rw [if_pos h]
    linarith
  · rw [if_neg h]
    push_neg at h
    linarith

/-- After a release the stored time does not exceed the clock (they agree). -/
theorem wrapperRelease_mono (st : ThrottleState) (d1 d2 : ℚ) :
    (wrapperRelease st d1 d2).last_call_time ≤ (wrapperRelease st d1 d2).clock :=
  le_of_eq (wrapperRelease_clock_eq st d1 d2).symm

/-- Chained spacing: starting from the stored time of `st`, every successive
release time in `runCalls st ds` exceeds its predecessor by at least the
interval, provided all clock drifts are nonnegative and the clock is
monotone. -/
theorem runCalls_chain (ds : List (ℚ × ℚ)) :
    ∀ st : ThrottleState, (∀ p ∈ ds, 0 ≤ p.1 ∧ 0 ≤ p.2) →
      st.last_call_time ≤ st.clock →
      List.Chain (fun a b => a + st.interval ≤ b) st.last_call_time
        (runCalls st ds) := by
  induction ds with
  | nil => intro st _ _; exact List.Chain.nil
  | cons d ds ih =>
      intro st hds hmono
      have hd := hds d (List.mem_cons_self d ds)
      refine List.Chain.cons (wrapperRelease_spacing st d.1 d.2 hd.2) ?_
      have := ih (wrapperRelease st d.1 d.2)
        (fun p hp => hds p (List.mem_cons_of_mem d hp))
        (wrapperRelease_mono st d.1 d.2)
      simpa [wrapperRelease_interval] using this

/-- Pairwise form of the chained spacing, over adjacent indices. -/
theorem runCalls_spacing_get (st : ThrottleState) (ds : List (ℚ × ℚ))
    (hds : ∀ p ∈ ds, 0 ≤ p.1 ∧ 0 ≤ p.2) (hmono : st.last_call_time ≤ st.clock)
    (i : ℕ) (hi : i < (runCalls st ds).length - 1) :
    st.interval ≤ (runCalls st ds).get ⟨i + 1, by omega⟩ -
      (runCalls st ds).get ⟨i, by omega⟩ := by
  have hchain := runCalls_chain ds st hds hmono
  rw [List.chain_iff_get] at hchain
  have := hchain.2 i hi
  linarith

/-! ### Event trace of one wrapper call -/

/-- Observable events of one `wrapper` call, in program order. -/
inductive Event where
  | lockAcquire
  | readClock (t : ℚ)
  | sleepFor (d : ℚ)
  | writeLast (t : ℚ)
  | lockRelease
  | callFunc
deriving DecidableEq, Repr

/-- The event trace of one `wrapper` call, transcribed from the source:
acquire the lock; read `now = time.time()`; if `elapsed < interval`, sleep
`interval - elapsed`; read `time.time()` again and store it into
`last_call_time`; release the lock; only then invoke the wrapped function. -/
def wrapperTrace (st : ThrottleState) (d1 d2 : ℚ) : List Event :=
  let now := st.clock + d1
  let elapsed := now - st.last_call_time
  if elapsed < st.interval then
    [Event.lockAcquire, Event.readClock now,
     Event.sleepFor (st.interval - elapsed),
     Event.readClock (now + (st.interval - elapsed) + d2),
     Event.writeLast (now + (st.interval - elapsed) + d2),
     Event.lockRelease, Event.callFunc]
  else
    [Event.lockAcquire, Event.readClock now,
     Event.readClock (now + d2),
     Event.writeLast (now + d2),
     Event.lockRelease, Event.callFunc]

/-! ### Two independent throttles -/

/-- A world holding the closure states of two distinct `rate_limit`
applications: each application creates its own `lock` and `last_call_time`
in a fresh closure, so the two states are disjoint. -/
structure TwoThrottles where
  fst : ThrottleState
  snd : ThrottleState
deriving DecidableEq, Repr

/-- A call through the first wrapper touches only the first closure state. -/
def callFst (w : TwoThrottles) (d1 d2 : ℚ) : TwoThrottles :=
  { w with fst := wrapperRelease w.fst d1 d2 }

/-- A call through the second wrapper touches only the second closure state. -/
def callSnd (w : TwoThrottles) (d1 d2 : ℚ) : TwoThrottles :=
  { w with snd := wrapperRelease w.snd d1 d2 }

/-! ### Claim theorems -/

/-- Claim C1: for every wrapper produced by `rate_limit rpm` with `rpm > 0`
and every sequence of calls through it (with a monotone clock), consecutive
release times recorded in `last_call_time` are at least `MinInterval =
60 / rpm` apart; in particular for `rpm = 60` three consecutive calls span
at least 2 seconds from first release to last release. -/
theorem claim1_spacing_invariant :
    (∀ (rpm : ℤ) (t0 : ℚ) (st : ThrottleState) (ds : List (ℚ × ℚ)),
        0 < rpm → 0 ≤ t0 → rate_limit rpm t0 = Except.ok st →
        (∀ p ∈ ds, 0 ≤ p.1 ∧ 0 ≤ p.2) →
        ∀ (i : ℕ) (hi : i < (runCalls st ds).length - 1),
          st.interval ≤ (runCalls st ds).get ⟨i + 1, by omega⟩ -
            (runCalls st ds).get ⟨i, by omega⟩) ∧
    (∀ (t0 : ℚ) (st : ThrottleState) (p1 p2 p3 : ℚ × ℚ) (r1 r2 r3 : ℚ),
        0 ≤ t0 → 0 ≤ p1.1 → 0 ≤ p1.2 → 0 ≤ p2.1 → 0 ≤ p2.2 →
        0 ≤ p3.1 → 0 ≤ p3.2 →
        rate_limit 60 t0 = Except.ok st →
        runCalls st [p1, p2, p3] = [r1, r2, r3] →
        2 ≤ r3 - r1) := by
  constructor
  · intro rpm t0 st ds hrpm ht0 hok hds i hi
    have hne : rpm ≠ 0 := by omega
    simp only [rate_limit, if_neg hne] at hok
    injection hok with h
    subst h
    refine runCalls_spacing_get _ ds hds ?_ i hi
    exact ht0
  · intro t0 st p1 p2 p3 r1 r2 r3 ht0 h11 h12 h21 h22 h31 h32 hok hrun
    have hne : (60 : ℤ) ≠ 0 := by norm_num
    simp only [rate_limit, if_neg hne] at hok
    injection hok with h
    subst h
    have hds : ∀ p ∈ [p1, p2, p3], 0 ≤ p.1 ∧ 0 ≤ p.2 := by
      intro p hp
      simp only [List.mem_cons, List.not_mem_nil, or_false] at hp
      rcases hp with h | h | h <;> subst h <;> exact ⟨by assumption, by assumption⟩
    have hchain := runCalls_chain [p1, p2, p3]
      (ThrottleState.mk (60 / ((60 : ℤ) : ℚ)) 0 t0) hds ht0
    rw [hrun] at hchain
    simp only [List.chain_cons, List.Chain] at hchain
    obtain ⟨-, g12, g23, -⟩ := hchain
    norm_num at g12 g23
    linarith

/-- Witness for C1 at concrete inputs: a fresh `rate_limit 60` throttle at
clock 0, three zero-drift calls releasing at times 1, 2, 3. -/
theorem claim1_spacing_invariant_witness :
    rate_limit 60 0 = Except.ok ⟨1, 0, 0⟩ ∧
    runCalls ⟨1, 0, 0⟩ [(0, 0), (0, 0), (0, 0)] = [1, 2, 3] ∧
    (2 : ℚ) ≤ 3 - 1 := by
  refine ⟨by norm_num [rate_limit], by norm_num [runCalls, wrapperRelease], ?_⟩
  exact claim1_spacing_invariant.2 0 ⟨1, 0, 0⟩ (0, 0) (0, 0) (0, 0) 1 2 3
    le_rfl le_rfl le_rfl le_rfl le_rfl le_rfl le_rfl
    (by norm_num [rate_limit]) (by norm_num [runCalls, wrapperRelease])

/-- Claim C2: the wrapper returns exactly the wrapped operation's value on
the given arguments, with no transformation; in particular wrapping
`add (a, b) = a + b` and calling it on `(3, 4)` yields `7`. -/
theorem claim2_pass_through :
    (∀ (α β : Type) (func : α → Except PyErr β) (st : ThrottleState)
        (d1 d2 : ℚ) (args : α),
        (wrapper func st d1 d2 args).1 = func args) ∧
    (∀ (st : ThrottleState) (d1 d2 : ℚ),
        (wrapper (fun p : ℤ × ℤ => Except.ok (p.1 + p.2)) st d1 d2 (3, 4)).1 =
          Except.ok 7) := by
  refine ⟨fun α β func st d1 d2 args => rfl, fun st d1 d2 => ?_⟩
  norm_num [wrapper]

/-- Claim C4: when the wrapped operation fails, the wrapper propagates the
identical failure, the state update is exactly the one a successful call
makes (the slot is consumed), and the subsequent call is spaced relative to
the failed one. -/
theorem claim4_failure_transparency :
    ∀ (α β : Type) (st : ThrottleState) (d1 d2 : ℚ) (e : PyErr) (args : α)
      (g : α → Except PyErr β),
      (wrapper (fun _ : α => (Except.error e : Except PyErr β)) st d1 d2 args).1 =
          Except.error e ∧
      (wrapper (fun _ : α => (Except.error e : Except PyErr β)) st d1 d2 args).2 =
          wrapperRelease st d1 d2 ∧
      (wrapper (fun _ : α => (Except.error e : Except PyErr β)) st d1 d2 args).2 =
          (wrapper g st d1 d2 args).2 ∧
      (∀ e1 e2 : ℚ, 0 ≤ e2 →
        (wrapper (fun _ : α => (Except.error e : Except PyErr β))
            st d1 d2 args).2.last_call_time + st.interval ≤
          (wrapperRelease
            (wrapper (fun _ : α => (Except.error e : Except PyErr β))
              st d1 d2 args).2 e1 e2).last_call_time) := by
  intro α β st d1 d2 e args g
  refine ⟨rfl, rfl, rfl, fun e1 e2 he2 => ?_⟩
  exact wrapperRelease_spacing (wrapperRelease st d1 d2) e1 e2 he2

/-- Witness for C4 at concrete inputs: a failing call on the unit throttle
consumes the slot (state update to release time 1) and the next release is
at least 1 later. -/
theorem claim4_failure_transparency_witness :
    (wrapper (fun _ : Unit => (Except.error (PyErr.userError "boom") :
        Except PyErr ℤ)) ⟨1, 0, 0⟩ 0 0 ()).1 =
      Except.error (PyErr.userError "boom") ∧
    (1 : ℚ) + 1 ≤ (wrapperRelease (wrapper (fun _ : Unit =>
        (Except.error (PyErr.userError "boom") : Except PyErr ℤ))
        ⟨1, 0, 0⟩ 0 0 ()).2 0 0).last_call_time := by
  have h := claim4_failure_transparency Unit ℤ ⟨1, 0, 0⟩ 0 0
    (PyErr.userError "boom") () (fun _ => Except.ok 0)
  refine ⟨h.1, ?_⟩
  have h4 := h.2.2.2 0 0 le_rfl
  have hval : (wrapper (fun _ : Unit => (Except.error (PyErr.userError "boom") :
      Except PyErr ℤ)) ⟨1, 0, 0⟩ 0 0 ()).2.last_call_time = 1 := by
    norm_num [wrapper, wrapperRelease]
  rw [hval] at h4
  exact h4

/-- Claim C3 counterexample: constructing with Rate = -1 does not fail; the
source computes `interval = 60 / (-1) = -60` and hands back a usable
decorator, refuting the claim that every negative rate fails at
construction. -/
theorem claim3_counterexample :
    rate_limit (-1) 0 =
      Except.ok { interval := -60, last_call_time := 0, clock := 0 } := by
  norm_num [rate_limit]

/-- Claim C3 (amended): construction with Rate = 0 fails (with Python's
`ZeroDivisionError` from `60.0 / rpm`, not a dedicated
`InvalidConfiguration`) and yields no instance; construction with any
Rate ≠ 0 — including negative rates — succeeds, computing
`interval = 60 / Rate` once at construction; the interval is never
recomputed by later calls. -/
theorem claim3_construction_amended :
    ∀ (rpm : ℤ) (t0 : ℚ),
      (rpm = 0 → rate_limit rpm t0 = Except.error PyErr.zeroDivisionError) ∧
      (rpm ≠ 0 → rate_limit rpm t0 =
        Except.ok { interval := 60 / (rpm : ℚ), last_call_time := 0,
                    clock := t0 }) ∧
      (∀ (st : ThrottleState) (d1 d2 : ℚ),
        (wrapperRelease st d1 d2).interval = st.interval) := by
  intro rpm t0
  refine ⟨fun h => ?_, fun h => ?_, fun st d1 d2 => rfl⟩
  · simp [rate_limit, h]
  · simp [rate_limit, h]

/-- Witness for the amended C3: Rate 0 raises; Rate 10 yields interval 6. -/
theorem claim3_construction_amended_witness :
    rate_limit 0 0 = Except.error PyErr.zeroDivisionError ∧
    rate_limit 10 0 =
      Except.ok { interval := 6, last_call_time := 0, clock := 0 } := by
  refine ⟨(claim3_construction_amended 0 0).1 rfl, ?_⟩
  have h := (claim3_construction_amended 10 0).2.1 (by norm_num)
  rw [h]
  norm_num

/-- Claim C5: a call arriving after the elapsed time already reached the
interval sleeps nothing and is released immediately (its stored time is the
clock reading plus its drift, however long the idle period was), and the
next call is still spaced a full interval after that release: idle time
earns no burst credit. -/
theorem claim5_no_burst_credit :
    ∀ (st : ThrottleState) (d1 d2 e1 e2 : ℚ),
      0 < st.interval → 0 ≤ d2 → 0 ≤ e2 →
      st.interval ≤ st.clock + d1 - st.last_call_time →
      sleepDuration st d1 = none ∧
      (wrapperRelease st d1 d2).last_call_time = st.clock + d1 + d2 ∧
      (wrapperRelease st d1 d2).last_call_time + st.interval ≤
        (wrapperRelease (wrapperRelease st d1 d2) e1 e2).last_call_time := by
  intro st d1 d2 e1 e2 _hpos _hd2 he2 hidle
  have hnot : ¬ st.clock + d1 - st.last_call_time < st.interval :=
    not_lt.mpr hidle
  refine ⟨?_, ?_, ?_⟩
  · simp [sleepDuration, if_neg hnot]
  · simp [wrapperRelease, if_neg hnot]
  · have h := wrapperRelease_spacing (wrapperRelease st d1 d2) e1 e2 he2
    rwa [wrapperRelease_interval] at h

/-- Witness for C5: unit-interval throttle idle since time 0, called at
time 5: no sleep, release at 5, next release at least 6. -/
theorem claim5_no_burst_credit_witness :
    sleepDuration ⟨1, 0, 5⟩ 0 = none ∧
    (wrapperRelease ⟨1, 0, 5⟩ 0 0).last_call_time = 5 ∧
    (wrapperRelease ⟨1, 0, 5⟩ 0 0).last_call_time + 1 ≤
      (wrapperRelease (wrapperRelease ⟨1, 0, 5⟩ 0 0) 0 0).last_call_time := by
  have h := claim5_no_burst_credit ⟨1, 0, 5⟩ 0 0 0 0
    (by norm_num) le_rfl le_rfl (by norm_num)
  refine ⟨h.1, ?_, h.2.2⟩
  rw [h.2.1]
  norm_num

/-- Claim C6: the steps of one wrapper call occur in source order — the lock
is taken, the clock is read, a sleep of `interval - elapsed` happens exactly
when `elapsed < interval`, `last_call_time` is then assigned a fresh reading
taken after the wait (strictly later than the pre-wait reading when a sleep
occurred), the lock is released, and only after all that is the wrapped
operation invoked. -/
theorem claim6_step_order :
    ∀ (st : ThrottleState) (d1 d2 : ℚ),
      (wrapperTrace st d1 d2).head? = some Event.lockAcquire ∧
      (wrapperTrace st d1 d2).get? 1 =
        some (Event.readClock (st.clock + d1)) ∧
      (st.clock + d1 - st.last_call_time < st.interval →
        (wrapperTrace st d1 d2).get? 2 =
          some (Event.sleepFor
            (st.interval - (st.clock + d1 - st.last_call_time))) ∧
        (wrapperTrace st d1 d2).get? 3 =
          some (Event.readClock (st.last_call_time + st.interval + d2)) ∧
        (wrapperTrace st d1 d2).get? 4 =
          some (Event.writeLast (st.last_call_time + st.interval + d2)) ∧
        (wrapperTrace st d1 d2).get? 5 = some Event.lockRelease ∧
        (wrapperTrace st d1 d2).get? 6 = some Event.callFunc ∧
        (wrapperRelease st d1 d2).last_call_time =
          st.last_call_time + st.interval + d2 ∧
        (0 ≤ d2 → st.clock + d1 <
          (wrapperRelease st d1 d2).last_call_time)) ∧
      (¬ st.clock + d1 - st.last_call_time < st.interval →
        (wrapperTrace st d1 d2).get? 2 =
          some (Event.readClock (st.clock + d1 + d2)) ∧
        (wrapperTrace st d1 d2).get? 3 =
          some (Event.writeLast (st.clock + d1 + d2)) ∧
        (wrapperTrace st d1 d2).get? 4 = some Event.lockRelease ∧
        (wrapperTrace st d1 d2).get? 5 = some Event.callFunc ∧
        (wrapperRelease st d1 d2).last_call_time =
          st.clock + d1 + d2) := by
  intro st d1 d2
  by_cases h : st.clock + d1 - st.last_call_time < st.interval
  · have ht : wrapperTrace st d1 d2 =
        [Event.lockAcquire, Event.readClock (st.clock + d1),
         Event.sleepFor (st.interval - (st.clock + d1 - st.last_call_time)),
         Event.readClock (st.clock + d1 +
           (st.interval - (st.clock + d1 - st.last_call_time)) + d2),
         Event.writeLast (st.clock + d1 +
           (st.interval - (st.clock + d1 - st.last_call_time)) + d2),
         Event.lockRelease, Event.callFunc] := by
      simp only [wrapperTrace]
      rw [if_pos h]
    have hrel : (wrapperRelease st d1 d2).last_call_time =
        st.last_call_time + st.interval + d2 := by
      simp only [wrapperRelease]
      rw [if_pos h]
      ring
    refine ⟨?_, ?_, fun _ => ?_, fun hc => absurd h hc⟩
    · rw [ht]; rfl
    · rw [ht]; rfl
    · refine ⟨?_, ?_, ?_, ?_, ?_, hrel, fun hd2 => ?_⟩
      · rw [ht]; rfl
      · rw [ht]; simp only [List.get?]; congr 2; ring
      · rw [ht]; simp only [List.get?]; congr 2; ring
      · rw [ht]; rfl
      · rw [ht]; rfl
      · rw [hrel]; linarith
  · have ht : wrapperTrace st d1 d2 =
        [Event.lockAcquire, Event.readClock (st.clock + d1),
         Event.readClock (st.clock + d1 + d2),
         Event.writeLast (st.clock + d1 + d2),
         Event.lockRelease, Event.callFunc] := by
      simp only [wrapperTrace]
      rw [if_neg h]
    have hrel : (wrapperRelease st d1 d2).last_call_time =
        st.clock + d1 + d2 := by
      simp only [wrapperRelease]
      rw [if_neg h]
    refine ⟨?_, ?_, fun hc => absurd hc h, fun _ => ?_⟩
    · rw [ht]; rfl
    · rw [ht]; rfl
    · exact ⟨by rw [ht]; rfl, by rw [ht]; rfl, by rw [ht]; rfl,
        by rw [ht]; rfl, hrel⟩

/-- Witness for C6 in the sleep case: unit-interval throttle at clock 0,
zero drifts — sleep of 1 at position 2, write of release time 1 at
position 4, lock release and delegated call after it, release time fresh
(strictly later than the pre-wait reading 0). -/
theorem claim6_step_order_witness :
    (wrapperTrace ⟨1, 0, 0⟩ 0 0).get? 2 = some (Event.sleepFor 1) ∧
    (wrapperTrace ⟨1, 0, 0⟩ 0 0).get? 4 = some (Event.writeLast 1) ∧
    (wrapperTrace ⟨1, 0, 0⟩ 0 0).get? 5 = some Event.lockRelease ∧
    (wrapperTrace ⟨1, 0, 0⟩ 0 0).get? 6 = some Event.callFunc ∧
    (0 : ℚ) < (wrapperRelease ⟨1, 0, 0⟩ 0 0).last_call_time := by
  obtain ⟨hsleep, hread, hwrite, hrel, hfunc, hlast, hfresh⟩ :=
    (claim6_step_order ⟨1, 0, 0⟩ 0 0).2.2.1 (by norm_num)
  refine ⟨?_, ?_, hrel, hfunc, ?_⟩
  · rw [hsleep]; norm_num
  · rw [hwrite]; norm_num
  · have h := hfresh le_rfl
    simpa using h

/-- Claim C7 counterexample: `last_call_time` is initialized to the sentinel
0.0, but the first call is not released immediately for every clock value:
on a `rate_limit 60` throttle whose first reading is 0, the elapsed time
since the sentinel is 0 < 1, so the first call sleeps a full second. -/
theorem claim7_counterexample :
    rate_limit 60 0 = Except.ok { interval := 1, last_call_time := 0, clock := 0 } ∧
    sleepDuration { interval := 1, last_call_time := 0, clock := 0 } 0 = some 1 := by
  constructor
  · norm_num [rate_limit]
  · norm_num [sleepDuration]

/-- Claim C7 (amended): every successful construction initializes
`last_call_time` to the sentinel 0.0, and the first call through a fresh
wrapper never sleeps provided its clock reading is at least `MinInterval`
(which holds for any epoch-based clock in practice); a reading below
`MinInterval` would instead make the first call sleep. -/
theorem claim7_first_call_amended :
    ∀ (rpm : ℤ) (t0 : ℚ) (st : ThrottleState) (d1 : ℚ),
      rate_limit rpm t0 = Except.ok st →
      st.last_call_time = 0 ∧
      (st.interval ≤ t0 + d1 → sleepDuration st d1 = none) := by
  intro rpm t0 st d1 hok
  by_cases h : rpm = 0
  · simp [rate_limit, h] at hok
  · simp only [rate_limit, if_neg h] at hok
    injection hok with heq
    subst heq
    refine ⟨rfl, fun hle => ?_⟩
    have hnot : ¬ (t0 + d1 - (0 : ℚ) < 60 / (rpm : ℚ)) := by
      push_neg
      have : (60 : ℚ) / (rpm : ℚ) ≤ t0 + d1 := hle
      linarith
    simp only [sleepDuration]
    rw [if_neg hnot]

/-- Witness for the amended C7: `rate_limit 60` at clock 2 — sentinel 0
stored, and the first call (reading 2 ≥ interval 1) does not sleep. -/
theorem claim7_first_call_amended_witness :
    (1 : ℚ) ≤ 2 + 0 ∧
    sleepDuration { interval := 1, last_call_time := 0, clock := 2 } 0 = none := by
  have h := claim7_first_call_amended 60 2
    { interval := 1, last_call_time := 0, clock := 2 } 0 (by norm_num [rate_limit])
  exact ⟨by norm_num, h.2 (by norm_num)⟩

/-- Claim C8: for every negative rpm, `rate_limit` succeeds and returns a
working decorator whose interval `60 / rpm` is negative, and every call
through the resulting wrapper with a monotone clock skips the sleep branch
(elapsed ≥ 0 > interval), releasing immediately: no rate limiting occurs. -/
theorem claim8_negative_rate :
    ∀ (rpm : ℤ) (t0 : ℚ), rpm < 0 →
      rate_limit rpm t0 =
        Except.ok { interval := 60 / (rpm : ℚ), last_call_time := 0,
                    clock := t0 } ∧
      60 / (rpm : ℚ) < 0 ∧
      (∀ (st : ThrottleState) (d1 : ℚ),
        st.interval = 60 / (rpm : ℚ) → 0 ≤ d1 →
        st.last_call_time ≤ st.clock →
        sleepDuration st d1 = none ∧
        (∀ d2 : ℚ, (wrapperRelease st d1 d2).last_call_time =
          st.clock + d1 + d2)) := by
  intro rpm t0 hneg
  have hne : rpm ≠ 0 := by omega
  have hcast : ((rpm : ℚ)) < 0 := by exact_mod_cast hneg
  have hint : 60 / (rpm : ℚ) < 0 := div_neg_of_pos_of_neg (by norm_num) hcast
  refine ⟨by simp [rate_limit, hne], hint, ?_⟩
  intro st d1 hst hd1 hmono
  have hnot : ¬ st.clock + d1 - st.last_call_time < st.interval := by
    rw [hst]
    push_neg
    linarith
  constructor
  · simp only [sleepDuration]
    rw [if_neg hnot]
  · intro d2
    simp only [wrapperRelease]
    rw [if_neg hnot]

/-- Witness for C8 at rpm = -1: construction succeeds with interval -60 and
a call on a fresh instance sleeps nothing. -/
theorem claim8_negative_rate_witness :
    rate_limit (-1) 0 =
      Except.ok { interval := -60, last_call_time := 0, clock := 0 } ∧
    sleepDuration { interval := -60, last_call_time := 0, clock := 0 } 0 =
      none := by
  have h := claim8_negative_rate (-1) 0 (by norm_num)
  have h3 := (h.2.2 { interval := -60, last_call_time := 0, clock := 0 } 0
    (by norm_num) le_rfl le_rfl).1
  refine ⟨?_, h3⟩
  rw [h.1]
  norm_num

/-- Claim C9: each `rate_limit` application creates its own closure: a call
through one wrapper leaves the other wrapper's state (in particular its
`last_call_time`) unchanged, never changes what the other wrapper would
sleep, and affects only its own state exactly as a lone call would. -/
theorem claim9_independent_instances :
    ∀ (w : TwoThrottles) (d1 d2 : ℚ),
      (callFst w d1 d2).snd = w.snd ∧
      (callSnd w d1 d2).fst = w.fst ∧
      (∀ e : ℚ, sleepDuration (callFst w d1 d2).snd e =
        sleepDuration w.snd e) ∧
      (∀ e : ℚ, sleepDuration (callSnd w d1 d2).fst e =
        sleepDuration w.fst e) ∧
      (callFst w d1 d2).fst = wrapperRelease w.fst d1 d2 ∧
      (callSnd w d1 d2).snd = wrapperRelease w.snd d1 d2 := by
  intro w d1 d2
  exact ⟨rfl, rfl, fun e => rfl, fun e => rfl, rfl, rfl⟩

/-- Claim C10: with a positive interval, a monotone clock and nonnegative
first-reading drift, whenever the sleep branch is taken the duration handed
to `time.sleep` is strictly positive and at most the interval, and a call
delays the clock by no more than the interval beyond the reading drifts. -/
theorem claim10_sleep_bounds :
    ∀ (st : ThrottleState) (d1 s : ℚ),
      0 < st.interval → 0 ≤ d1 → st.last_call_time ≤ st.clock →
      (sleepDuration st d1 = some s → 0 < s ∧ s ≤ st.interval) ∧
      (∀ d2 : ℚ, (wrapperRelease st d1 d2).clock ≤
        st.clock + d1 + st.interval + d2) := by
  intro st d1 s hpos hd1 hmono
  constructor
  · intro hs
    by_cases h : st.clock + d1 - st.last_call_time < st.interval
    · simp only [sleepDuration] at hs
      rw [if_pos h] at hs
      simp only [Option.some.injEq] at hs
      constructor <;> linarith
    · simp only [sleepDuration] at hs
      rw [if_neg h] at hs
      exact absurd hs (by simp)
  · intro d2
    by_cases h : st.clock + d1 - st.last_call_time < st.interval
    · simp only [wrapperRelease]
      rw [if_pos h]
      linarith
    · simp only [wrapperRelease]
      rw [if_neg h]
      linarith

/-- Witness for C10: unit-interval throttle called at its own release time —
the sleep is exactly 1 (positive and equal to the interval) and the clock
advances by exactly the interval. -/
theorem claim10_sleep_bounds_witness :
    sleepDuration { interval := 1, last_call_time := 0, clock := 0 } 0 =
      some 1 ∧
    (0 : ℚ) < 1 ∧ (1 : ℚ) ≤ 1 ∧
    (wrapperRelease { interval := 1, last_call_time := 0, clock := 0 }
      0 0).clock ≤ 0 + 0 + 1 + 0 := by
  have h := claim10_sleep_bounds { interval := 1, last_call_time := 0, clock := 0 }
    0 1 (by norm_num) le_rfl le_rfl
  have hs : sleepDuration { interval := 1, last_call_time := 0, clock := 0 } 0 =
      some 1 := by norm_num [sleepDuration]
  have hb := h.1 hs
  exact ⟨hs, hb.1, hb.2, h.2 0⟩

end Rateguard
